import Mathlib

/-!
Verification of the document-template synthesis engine of the release-lens
repository.  The engine (style detection, finding parsing, markup building and
template injection) is written in JavaScript; here it is shallowly embedded as
executable Lean definitions.  JavaScript strings are modelled as Lean strings
(all characters that occur in the engine are in the basic multilingual plane,
so JavaScript UTF-16 indices coincide with character counts).  JavaScript
index sentinels (-1) are modelled with Int, and the clamping behaviour of
slice / indexOf / lastIndexOf follows the ECMAScript specification.  All
recursive definitions are structural, so every definition evaluates inside
the kernel.
-/

set_option autoImplicit false

namespace ReleaseLens

/-! ## JavaScript string primitives -/

/-- Character class of the JavaScript whitespace escape (the characters
matched by a backslash-s regular expression atom), by code point. -/
def isJsWs (c : Char) : Bool :=
  let n := c.toNat
  n == 0x20 || n == 0x09 || n == 0x0A || n == 0x0B || n == 0x0C || n == 0x0D ||
  n == 0xA0 || n == 0x1680 || (0x2000 ≤ n && n ≤ 0x200A) ||
  n == 0x2028 || n == 0x2029 || n == 0x202F || n == 0x205F || n == 0x3000 ||
  n == 0xFEFF

/-- Line terminators: the characters NOT matched by the regular-expression
dot, by code point. -/
def isJsNewline (c : Char) : Bool :=
  let n := c.toNat
  n == 0x0A || n == 0x0D || n == 0x2028 || n == 0x2029

/-- True when the pattern occurs in the character list starting at index i. -/
def occursAt (pat l : List Char) (i : Nat) : Bool :=
  pat.isPrefixOf (l.drop i)

/-- Index of the leftmost occurrence of the pattern in the list
(None when absent). -/
def firstOccList (pat : List Char) : List Char → Option Nat
  | [] => if pat.isPrefixOf ([] : List Char) then some 0 else none
  | c :: t =>
    if pat.isPrefixOf (c :: t) then some 0
    else (firstOccList pat t).map (· + 1)

/-- First occurrence of the pattern at an index at least i (None when absent). -/
def firstOccFrom (pat l : List Char) (i : Nat) : Option Nat :=
  (firstOccList pat (l.drop i)).map (· + i)

/-- Last occurrence of the pattern at an index at most i (None when absent). -/
def lastOccUpTo (pat l : List Char) : Nat → Option Nat
  | 0 => if occursAt pat l 0 then some 0 else none
  | i + 1 => if occursAt pat l (i + 1) then some (i + 1) else lastOccUpTo pat l i

/-- JavaScript indexOf. -/
def jsIndexOf (s pat : String) : Int :=
  match firstOccFrom pat.data s.data 0 with
  | some i => Int.ofNat i
  | none => -1

/-- JavaScript indexOf with a fromIndex (clamped into the string). -/
def jsIndexOfFrom (s pat : String) (i : Int) : Int :=
  let start := if i < 0 then 0 else min i.toNat s.data.length
  match firstOccFrom pat.data s.data start with
  | some j => Int.ofNat j
  | none => -1

/-- JavaScript lastIndexOf (no fromIndex: the whole string is searched). -/
def jsLastIndexOf (s pat : String) : Int :=
  match lastOccUpTo pat.data s.data s.data.length with
  | some i => Int.ofNat i
  | none => -1

/-- JavaScript lastIndexOf with a fromIndex: a negative index is clamped to 0,
an index past the end is clamped to the length; the returned match starts at
or before the clamped index. -/
def jsLastIndexOfFrom (s pat : String) (i : Int) : Int :=
  let start := if i < 0 then 0 else min i.toNat s.data.length
  match lastOccUpTo pat.data s.data start with
  | some j => Int.ofNat j
  | none => -1

/-- Normalize one slice argument exactly as ECMAScript String.prototype.slice:
negative indices count from the end and everything is clamped into [0, len]. -/
def normSliceIdx (len : Nat) (x : Int) : Nat :=
  if x < 0 then (Int.ofNat len + x).toNat else min x.toNat len

/-- JavaScript two-argument slice. -/
def jsSlice2 (s : String) (a b : Int) : String :=
  let lo := normSliceIdx s.data.length a
  let hi := normSliceIdx s.data.length b
  String.mk ((s.data.take hi).drop lo)

/-- JavaScript one-argument slice (up to the end of the string). -/
def jsSliceFrom (s : String) (a : Int) : String :=
  jsSlice2 s a (Int.ofNat s.data.length)

/-- JavaScript String.prototype.startsWith, evaluated over the character
lists. -/
def jsStartsWith (s pre : String) : Bool := pre.data.isPrefixOf s.data

/-- JavaScript trim (strip JavaScript whitespace from both ends). -/
def jsTrim (s : String) : String :=
  String.mk (((s.data.dropWhile isJsWs).reverse.dropWhile isJsWs).reverse)

/-- ASCII lower-casing, modelling toLowerCase on the identifiers and labels
that occur in the engine. -/
def jsToLower (s : String) : String := String.mk (s.data.map Char.toLower)

/-- ASCII upper-casing, modelling toUpperCase on the titles that occur in the
engine. -/
def jsToUpper (s : String) : String := String.mk (s.data.map Char.toUpper)

/-- Case-insensitive substring test, modelling a test call of a regular
expression that is a plain literal with the i flag. -/
def testIC (pat s : String) : Bool :=
  match firstOccFrom (jsToLower pat).data (jsToLower s).data 0 with
  | some _ => true
  | none => false

/-- Helper for the never-dot-star-set regular expression: starting from a
position, look for the literal "set" with no line terminator before it. -/
def scanSetNoNl : List Char → Bool
  | [] => false
  | c :: rest =>
    if occursAt "set".data (c :: rest) 0 then true
    else if isJsNewline c then false
    else scanSetNoNl rest

/-- Helper: try every occurrence of "never" in the list. -/
def neverSetAux : List Char → Bool
  | [] => false
  | c :: rest =>
    if occursAt "never".data (c :: rest) 0 then
      if scanSetNoNl ((c :: rest).drop 5) then true else neverSetAux rest
    else neverSetAux rest

/-- Test of the case-insensitive regular expression never dot-star set. -/
def testNeverSet (s : String) : Bool := neverSetAux (jsToLower s).data

/-! ## Dash-splitting as the source regular expressions actually behave

The source builds its dash regular expressions from plain double-quoted
JavaScript strings, so the two-character sequence backslash-s collapses to the
letter s before the RegExp constructor ever sees it: the compiled pattern for
the split call is s+[em-dash en-dash]s+ (a literal letter s), not a
whitespace class.  The companion docx-library export in src/src/App.jsx uses
genuine regex literals, so there the class really is whitespace; both variants
are embedded. -/

/-- The two dash characters of the regular expression character class. -/
def isDashC (c : Char) : Bool := c == '—' || c == '–'

/-- Length of a match of the compiled pattern s+[dash]s+ at the head of the
list (greedy runs; the pattern matches here iff a maximal run of the letter s
is followed by a dash and at least one further letter s). -/
def sDashMatchLen (l : List Char) : Option Nat :=
  let n1 := (l.takeWhile (· == 's')).length
  if n1 == 0 then none
  else match l.drop n1 with
    | c :: rest =>
      if isDashC c then
        let n2 := (rest.takeWhile (· == 's')).length
        if n2 == 0 then none else some (n1 + 1 + n2)
      else none
    | [] => none

/-- Length of a match of the genuine whitespace pattern at the head of the
list (used by the docx-library export path in src/src/App.jsx). -/
def wsDashMatchLen (l : List Char) : Option Nat :=
  let n1 := (l.takeWhile isJsWs).length
  if n1 == 0 then none
  else match l.drop n1 with
    | c :: rest =>
      if isDashC c then
        let n2 := (rest.takeWhile isJsWs).length
        if n2 == 0 then none else some (n1 + 1 + n2)
      else none
    | [] => none

/-- JavaScript String.prototype.split with a regular expression: cut at each
leftmost non-overlapping match.  Fuel-based structural recursion (every step
consumes at least one character). -/
def splitByMatcher (matchLen : List Char → Option Nat) :
    Nat → List Char → List Char → List String → List String
  | 0, l, cur, acc => acc ++ [String.mk (cur.reverse ++ l)]
  | _ + 1, [], cur, acc => acc ++ [String.mk cur.reverse]
  | fuel + 1, c :: rest, cur, acc =>
    match matchLen (c :: rest) with
    | some k =>
      splitByMatcher matchLen fuel ((c :: rest).drop k) [] (acc ++ [String.mk cur.reverse])
    | none => splitByMatcher matchLen fuel rest (c :: cur) acc

/-- Split on the compiled (letter-s) dash pattern, as in the template export. -/
def jsSplitSDash (s : String) : List String :=
  splitByMatcher sDashMatchLen (s.data.length + 1) s.data [] []

/-- Split on the genuine whitespace dash pattern, as in the docx-library
export of src/src/App.jsx. -/
def jsSplitWsDash (s : String) : List String :=
  splitByMatcher wsDashMatchLen (s.data.length + 1) s.data [] []

/-- The search call of the new-features branch: first index of the compiled
three-character pattern s[dash]s (again a literal letter s). -/
def sDash1SearchAux : List Char → Nat → Int
  | a :: b :: c :: rest, i =>
    if a == 's' && isDashC b && c == 's' then Int.ofNat i
    else sDash1SearchAux (b :: c :: rest) (i + 1)
  | _, _ => -1

/-- JavaScript search for the compiled pattern s[dash]s. -/
def jsSearchSDash1 (s : String) : Int := sDash1SearchAux s.data 0

/-- The replace call of the new-features branch: strip one leading match of
the compiled pattern s*[dash]s* (only a match anchored at the start). -/
def stripLeadSDash (s : String) : String :=
  let l := s.data
  let n1 := (l.takeWhile (· == 's')).length
  match l.drop n1 with
  | c :: rest => if isDashC c then String.mk (rest.dropWhile (· == 's')) else s
  | [] => s

/-! ## Styles and markup helpers -/

/-- The resolved style map: eight logical roles.  Field names follow the
source object. -/
structure Styles where
  h1 : String
  h2 : String
  body : String
  bullet : String
  tableHeader : String
  tableText : String
  tableGrid : String
  fill : String
deriving DecidableEq, Repr

/-- Default style identifiers of the bundled template. -/
def DEFAULT_STYLES : Styles :=
  { h1 := "Heading1", h2 := "Heading2", body := "BodyText", bullet := "ListBullet",
    tableHeader := "TableHeader", tableText := "TableText", tableGrid := "TableGrid",
    fill := "0073E6" }

/-- One escaped character.  The source performs four sequential global
replaces (ampersand first, then the angle brackets and the double quote);
because none of the replacement texts contains a character replaced by a later
pass, the sequence equals this single character-wise expansion. -/
def xmlEscChar (c : Char) : List Char :=
  if c == '&' then "&amp;".data
  else if c == '<' then "&lt;".data
  else if c == '>' then "&gt;".data
  else if c == '"' then "&quot;".data
  else [c]

/-- The xmlEsc helper of the source. -/
def xmlEsc (s : String) : String := String.mk (s.data.map xmlEscChar).flatten

/-- Heading-1 paragraph markup. -/
def xmlH1 (text : String) (st : Styles) : String :=
  "<w:p><w:pPr><w:pStyle w:val=\"" ++ st.h1 ++
  "\"/></w:pPr><w:r><w:t xml:space=\"preserve\">" ++ xmlEsc text ++ "</w:t></w:r></w:p>"

/-- Heading-2 paragraph markup. -/
def xmlH2 (text : String) (st : Styles) : String :=
  "<w:p><w:pPr><w:pStyle w:val=\"" ++ st.h2 ++
  "\"/></w:pPr><w:r><w:t xml:space=\"preserve\">" ++ xmlEsc text ++ "</w:t></w:r></w:p>"

/-- Body paragraph markup. -/
def xmlBody (text : String) (st : Styles) : String :=
  "<w:p><w:pPr><w:pStyle w:val=\"" ++ st.body ++
  "\"/></w:pPr><w:r><w:t xml:space=\"preserve\">" ++ xmlEsc text ++ "</w:t></w:r></w:p>"

/-- Bulleted paragraph markup. -/
def xmlBullet (text : String) (st : Styles) : String :=
  "<w:p><w:pPr><w:pStyle w:val=\"" ++ st.bullet ++
  "\"/></w:pPr><w:r><w:t xml:space=\"preserve\">" ++ xmlEsc text ++ "</w:t></w:r></w:p>"

/-- Empty spacer paragraph markup. -/
def xmlSpacer (st : Styles) : String :=
  "<w:p><w:pPr><w:pStyle w:val=\"" ++ st.body ++ "\"/></w:pPr></w:p>"

/-- Three-column table markup.  The source reads each data-cell width from the
column list by index; every call site passes rows of exactly the column count,
which the zip below reproduces. -/
def xmlTable3 (cols : List (String × Nat)) (rows : List (List String)) (st : Styles) : String :=
  let totalW := (cols.map (·.2)).sum
  let hdrCells := String.join (cols.map (fun c =>
    "<w:tc><w:tcPr><w:tcW w:w=\"" ++ toString c.2 ++
    "\" w:type=\"dxa\"/><w:shd w:val=\"clear\" w:color=\"auto\" w:fill=\"" ++ st.fill ++
    "\"/></w:tcPr><w:p><w:pPr><w:pStyle w:val=\"" ++ st.tableHeader ++
    "\"/></w:pPr><w:r><w:t xml:space=\"preserve\">" ++ xmlEsc c.1 ++
    "</w:t></w:r></w:p></w:tc>"))
  let dataRows := String.join (rows.map (fun row =>
    "<w:tr>" ++ String.join ((row.zip cols).map (fun p =>
      "<w:tc><w:tcPr><w:tcW w:w=\"" ++ toString p.2.2 ++
      "\" w:type=\"dxa\"/></w:tcPr><w:p><w:pPr><w:pStyle w:val=\"" ++ st.tableText ++
      "\"/></w:pPr><w:r><w:t xml:space=\"preserve\">" ++ xmlEsc p.1 ++
      "</w:t></w:r></w:p></w:tc>")) ++ "</w:tr>"))
  "<w:tbl><w:tblPr><w:tblStyle w:val=\"" ++ st.tableGrid ++ "\"/><w:tblW w:w=\"" ++
  toString totalW ++ "\" w:type=\"dxa\"/><w:tblLook w:val=\"04A0\" w:firstRow=\"1\"/></w:tblPr><w:tblGrid>" ++
  String.join (cols.map (fun c => "<w:gridCol w:w=\"" ++ toString c.2 ++ "\"/>")) ++
  "</w:tblGrid><w:tr>" ++ hdrCells ++ "</w:tr>" ++ dataRows ++ "</w:tbl>"

/-! ## Keyword parsers -/

/-- Priority keyword parser of the source. -/
def parsePriority (text : String) : String :=
  if testIC "critical" text then "Critical"
  else if testIC "high" text then "High"
  else if testIC "medium" text then "Medium"
  else "High"

/-- Deprecation-status keyword parser of the source. -/
def parseDepStatus (text : String) : String :=
  if testIC "prohibit" text || testIC "must not" text || testNeverSet text then "Prohibited"
  else if testIC "replac" text || testIC "supersed" text then "Replaced"
  else if testIC "merg" text then "Merged/Superseded"
  else if testIC "remov" text then "Removed"
  else "Deprecated"

/-- Deployment-nature keyword parser of the source. -/
def parseNature (text : String) : String :=
  if testIC "new section" text then "New section added"
  else if testIC "fully replac" text then "Fully replaced"
  else if testIC "remov" text then "Removed"
  else "Updated"

/-! ## Finding parsing (per-scope record construction) -/

/-- JavaScript truthiness-based or on strings (empty string is falsy). -/
def orElseNE (a b : String) : String := if a = "" then b else a

/-- One analysis scope.  The source scope objects also carry an icon and an
accent color, which the markup builder never reads; only the identifier and
the display label are modelled. -/
structure Scope where
  id : String
  label : String
deriving DecidableEq, Repr

/-- Title / detail decomposition of one new-features bullet (colon between
positions 5 and 80, else the compiled s[dash]s search, else a 60-character
truncation). -/
def nfSplit (b : String) : String × String :=
  let colonIdx := jsIndexOf b ":"
  if 5 < colonIdx ∧ colonIdx < 80 then
    (jsTrim (jsSlice2 b 0 colonIdx), jsTrim (jsSliceFrom b (colonIdx + 1)))
  else
    let dash := jsSearchSDash1 b
    if 5 < dash then
      (jsTrim (jsSlice2 b 0 dash), stripLeadSDash (jsSliceFrom b dash))
    else (jsTrim (jsSlice2 b 0 60), "")

/-- Helper matching Array.prototype.join with a separator. -/
def joinSep (sep : String) : List String → String
  | [] => ""
  | [x] => x
  | x :: y :: t => x ++ sep ++ joinSep sep (y :: t)

/-- Item / status / notes row of one deprecated bullet (template export). -/
def depRow (b : String) : List String :=
  let parts := jsSplitSDash b
  let item := orElseNE (jsTrim (parts.headD "")) (jsSlice2 b 0 60)
  let notesV := orElseNE (jsTrim (joinSep " — " (parts.drop 1))) b
  [item, parseDepStatus b, notesV]

/-- Section / nature / impact row of one deployment-changes bullet. -/
def deplRow (b : String) : List String :=
  let parts := jsSplitSDash b
  let sec := orElseNE (jsTrim (parts.headD "")) (jsSlice2 b 0 50)
  let p1 := parts.getD 1 ""
  let nature := if p1 = "" then parseNature b else parseNature p1
  let impact := orElseNE (jsTrim (parts.getD 2 "")) (orElseNE (jsTrim (parts.getD 1 "")) "")
  [sec, nature, impact]

/-- Requirement / severity / action row of one security bullet. -/
def secRow (b : String) : List String :=
  let sev := if testIC "critical" b then "Critical"
    else if testIC "high" b then "High" else "Medium"
  [b, sev, "Verify compliance"]

/-- Area / action / priority row of one migration-guide bullet. -/
def migRow (b : String) : List String :=
  let parts := jsSplitSDash b
  let area := orElseNE (jsTrim (parts.headD "")) (jsSlice2 b 0 30)
  let action := orElseNE (jsTrim (parts.getD 1 "")) b
  let pri := parsePriority (orElseNE (parts.getD 2 "") b)
  [area, action, pri]

/-- Item / status / notes row of one deprecated bullet as produced by the
docx-library export path (buildDeprecated in src/src/App.jsx): genuine
whitespace dash split, truthiness check before trim, 50-character fallback,
and a status chain without the must-not / never-set alternatives. -/
def appDepRow (b : String) : List String :=
  let parts := jsSplitWsDash b
  let p0 := parts.headD ""
  let itemName := if p0 = "" then jsSlice2 b 0 50 else jsTrim p0
  let notesV := orElseNE (jsTrim (joinSep " — " (parts.drop 1))) b
  let status :=
    if testIC "prohibit" b then "Prohibited"
    else if testIC "replac" b || testIC "supersed" b then "Replaced"
    else if testIC "merg" b then "Merged/Superseded"
    else if testIC "remov" b then "Removed"
    else "Deprecated"
  [itemName, status, notesV]

/-- Typed view of one finding as rendered into the markup: the cell list of
its table row (tabular scopes), the title / detail pair (new features), or
the verbatim text (bulleted scopes). -/
def recordCells (id : String) (b : String) : List String :=
  if id = "new_features" then [(nfSplit b).1, (nfSplit b).2]
  else if id = "deprecated" then depRow b
  else if id = "deployment_changes" then deplRow b
  else if id = "security" then secRow b
  else if id = "migration_guide" then migRow b
  else [b]

/-! ## Markup builder -/

/-- One block element of the generated markup.  The source emits these as
strings (xmlH1, xmlBody, xmlBullet, the spacer and xmlTable3) and
concatenates them; the block list makes the concatenation structure
available to the theorems, and rendering it reproduces the source string
exactly. -/
inductive Block where
  | h1 (text : String)
  | h2 (text : String)
  | bodyPara (text : String)
  | bulletPara (text : String)
  | spacer
  | table (cols : List (String × Nat)) (rows : List (List String))
deriving DecidableEq, Repr

/-- Render one block with the active style map. -/
def renderBlock (st : Styles) : Block → String
  | .h1 t => xmlH1 t st
  | .h2 t => xmlH2 t st
  | .bodyPara t => xmlBody t st
  | .bulletPara t => xmlBullet t st
  | .spacer => xmlSpacer st
  | .table cols rows => xmlTable3 cols rows st

/-- Column headers and widths of the deprecated table. -/
def depCols : List (String × Nat) := [("Item", 3200), ("Status", 1500), ("Notes", 4259)]

/-- Column headers and widths of the deployment-changes table. -/
def deplCols : List (String × Nat) :=
  [("Changed Section", 3136), ("Nature of Change", 1800), ("Operational Impact", 4023)]

/-- Column headers and widths of the security table. -/
def secCols : List (String × Nat) :=
  [("Security Requirement", 5500), ("Severity", 1600), ("Action", 1859)]

/-- Column headers and widths of the migration-guide table. -/
def migCols : List (String × Nat) :=
  [("Area", 2400), ("Action Required", 5159), ("Priority", 1400)]

/-- Block sequence of one scope section (buildScopeXml of the source, before
rendering).  The switch of the source is an equality chain on the scope
identifier; the empty-bullets guard comes first exactly as in the source. -/
def buildScopeBlocks (sc : Scope) (bullets : List String) : List Block :=
  if bullets = [] then
    [.h1 sc.label,
     .bodyPara ("No " ++ jsToLower sc.label ++ " identified in this document."),
     .spacer]
  else if sc.id = "new_features" then
    [.h1 "New or Changed Features",
     .bodyPara "The following features and sections were added or significantly updated in this release.",
     .spacer] ++
    (bullets.map (fun b => [Block.h2 (nfSplit b).1, Block.bodyPara (nfSplit b).2, Block.spacer])).flatten
  else if sc.id = "deprecated" then
    [.h1 "Deprecated or Removed Features",
     .bodyPara "The following items have been removed or superseded in this release.",
     .spacer, .table depCols (bullets.map depRow), .spacer]
  else if sc.id = "deployment_changes" then
    [.h1 "Deployment Guide Update Notes",
     .bodyPara "The following items represent notable changes that impact how deployments should be executed.",
     .spacer, .table deplCols (bullets.map deplRow), .spacer]
  else if sc.id = "security" then
    [.h1 "Security & Compliance Requirements",
     .bodyPara "The following security requirements, credential rules, and compliance mandates were identified.",
     .spacer, .table secCols (bullets.map secRow), .spacer]
  else if sc.id = "breaking_changes" then
    [.h1 "Breaking Changes",
     .bodyPara "The following changes may break existing deployments if previous documentation was followed. Immediate review is required.",
     .spacer] ++ bullets.map Block.bulletPara ++ [.spacer]
  else if sc.id = "migration_guide" then
    [.h1 "Summary: Key Actions for Deployment Teams",
     .bodyPara "The following actions are required when migrating from the previous release.",
     .spacer, .table migCols (bullets.map migRow), .spacer]
  else
    [.h1 sc.label, .spacer] ++ bullets.map Block.bulletPara ++ [.spacer]

/-- The buildScopeXml function of the source: the rendered concatenation of
the block sequence. -/
def buildScopeXml (sc : Scope) (bullets : List String) (st : Styles) : String :=
  String.join ((buildScopeBlocks sc bullets).map (renderBlock st))

/-- Result-map lookup: the bullet list of a scope identifier, defaulting to
the empty list (resultMap[scope.id] or-else empty in the source). -/
def bulletsFor (rm : List (String × List String)) (k : String) : List String :=
  ((rm.find? (fun e => e.1 == k)).map (·.2)).getD []

/-- The scope-section assembler: concatenates every scope section in the
caller-supplied order. -/
def assembleContent (scopes : List Scope) (rm : List (String × List String))
    (st : Styles) : String :=
  String.join (scopes.map (fun sc => buildScopeXml sc (bulletsFor rm sc.id) st))

/-! ## Template injection -/

/-- Title and subtitle override; empty strings model the absent JavaScript
fields (both are tested with truthiness in the source). -/
structure DocTitle where
  title : String := ""
  subtitle : String := ""
deriving DecidableEq, Repr

/-- The findInjectionBounds function of the source: position after the last
paragraph end preceding the last sectPr block, and the position of that
block.  Both components keep the JavaScript -1 sentinel when a search fails. -/
def findInjectionBounds (docXml : String) : Int × Int :=
  let lastSectStart := jsLastIndexOf docXml "<w:sectPr"
  let lastParaEnd := jsLastIndexOfFrom docXml "</w:p>" lastSectStart
  (if lastParaEnd = -1 then lastSectStart else lastParaEnd + 6, lastSectStart)

/-- The updateCoverTitle function of the source: replace the Title-styled
paragraph with an upper-cased override (plus optional subtitle); leave the
document unchanged when no override title or no Title style reference is
present. -/
def updateCoverTitle (docXml : String) (t : DocTitle) : String :=
  if t.title = "" then docXml
  else
    let titleStyleIdx := jsIndexOf docXml "w:val=\"Title\""
    if titleStyleIdx == -1 then docXml
    else
      let paraStart := jsLastIndexOfFrom docXml "<w:p>" titleStyleIdx
      let paraStart2 := jsLastIndexOfFrom docXml "<w:p " titleStyleIdx
      let pStart := max paraStart paraStart2
      let pEnd := jsIndexOfFrom docXml "</w:p>" titleStyleIdx + 6
      if pStart == -1 || pEnd == -1 then docXml
      else
        let newTitlePara :=
          "<w:p><w:pPr><w:pStyle w:val=\"Title\"/></w:pPr><w:r><w:t xml:space=\"preserve\">" ++
          xmlEsc (jsToUpper t.title) ++
          (if t.subtitle = "" then "" else " - " ++ xmlEsc (jsToUpper t.subtitle)) ++
          "</w:t></w:r></w:p>"
        jsSlice2 docXml 0 pStart ++ newTitlePara ++ jsSliceFrom docXml pEnd

/-- The document-part patching pipeline of exportWithTemplate: update the
cover title, compute the injection bounds on the updated document, and splice
the assembled content between prefix and suffix. -/
def exportDocXml (docXml contentXml : String) (t : DocTitle) : String :=
  let d := updateCoverTitle docXml t
  let bounds := findInjectionBounds d
  jsSlice2 d 0 bounds.1 ++ contentXml ++ jsSliceFrom d bounds.2

/-! ## Style detection (detectTemplateStyles) -/

/-- JavaScript word character (for the word-boundary assertion). -/
def isWordChar (c : Char) : Bool := c.isAlphanum || c == '_'

/-- Scan forward for a literal without crossing a greater-than sign (the
bracketed-negation star of the style regular expressions); returns the rest
after the literal. -/
def scanToLitNoGt (lit : List Char) : List Char → Option (List Char)
  | [] => if lit.isPrefixOf ([] : List Char) then some [] else none
  | c :: rest =>
    if lit.isPrefixOf (c :: rest) then some ((c :: rest).drop lit.length)
    else if c == '>' then none
    else scanToLitNoGt lit rest

/-- Split at the first occurrence of a character: before and after it. -/
def splitAtCharAux (ch : Char) : List Char → Option (List Char × List Char)
  | [] => none
  | c :: rest =>
    if c == ch then some ([], rest)
    else (splitAtCharAux ch rest).map (fun p => (c :: p.1, p.2))

/-- Split at the first occurrence of a literal: before and after it. -/
def splitAtList (lit : List Char) : List Char → Option (List Char × List Char)
  | [] => if lit.isPrefixOf ([] : List Char) then some ([], []) else none
  | c :: rest =>
    if lit.isPrefixOf (c :: rest) then some ([], (c :: rest).drop lit.length)
    else (splitAtList lit rest).map (fun p => (c :: p.1, p.2))

/-- True when the literal occurs somewhere in the list. -/
def containsLit (lit l : List Char) : Bool :=
  match firstOccList lit l with
  | some _ => true
  | none => false

/-- Attempt the name attribute extraction right after a w:name candidate. -/
def nameAttempt (l : List Char) : Option String :=
  match scanToLitNoGt "w:val=\"".data l with
  | none => none
  | some r1 =>
    match splitAtCharAux '"' r1 with
    | some (nm, _) => if nm = [] then none else some (String.mk nm)
    | none => none

/-- First match of the w:name value regular expression inside a style block
(on failure the scan resumes after the failed candidate, as a regex engine
does). -/
def innerNameAux : List Char → Option String
  | [] => none
  | c :: rest =>
    if "<w:name".data.isPrefixOf (c :: rest) then
      let after := (c :: rest).drop 7
      let bOk := match after.head? with
        | some d => !isWordChar d
        | none => true
      if bOk then
        match nameAttempt after with
        | some nm => some nm
        | none => innerNameAux rest
      else innerNameAux rest
    else innerNameAux rest

/-- Display name of one style block (empty when the attribute is absent),
before lower-casing and trimming. -/
def innerName (inner : List Char) : String :=
  match innerNameAux inner with
  | some nm => nm
  | none => ""

/-- Attempt one full style-element match; the argument starts right after a
w:style candidate literal.  Returns the captured identifier, the display
name of the block, and the rest of the input after the closing tag. -/
def styleAttempt (l : List Char) : Option (String × String × List Char) :=
  let bOk := match l.head? with
    | some d => !isWordChar d
    | none => true
  if !bOk then none
  else
    match scanToLitNoGt "w:styleId=\"".data l with
    | none => none
    | some r1 =>
      match splitAtCharAux '"' r1 with
      | none => none
      | some (idCs, r2) =>
        if idCs = [] then none
        else
          match splitAtCharAux '>' r2 with
          | none => none
          | some (_, r3) =>
            match splitAtList "</w:style>".data r3 with
            | none => none
            | some (inner, rest) => some (String.mk idCs, innerName inner, rest)

/-- Insert with JavaScript object-assignment semantics: an existing key keeps
its position and gets the new value, a new key is appended. -/
def upsertEntry : List (String × String) → String → String → List (String × String)
  | [], k, v => [(k, v)]
  | (k0, v0) :: t, k, v =>
    if k0 = k then (k0, v) :: t else (k0, v0) :: upsertEntry t k v

/-- Exec loop over the style-element regular expression, building the
identifier-to-name map in scan order.  On a failed candidate the scan resumes
after the candidate literal (the literal cannot overlap itself, so no later
candidate is skipped). -/
def scanStylesAux (startLit : List Char) : Nat → List Char → List (String × String) →
    List (String × String)
  | 0, _, acc => acc
  | fuel + 1, l, acc =>
    match splitAtList startLit l with
    | none => acc
    | some (_, after) =>
      match styleAttempt after with
      | some (id, nm, rest) =>
        scanStylesAux startLit fuel rest (upsertEntry acc id (jsTrim (jsToLower nm)))
      | none => scanStylesAux startLit fuel after acc

/-- The style-catalogue scan of detectTemplateStyles: style identifier to
normalized (lower-cased, trimmed) display name, in scan order. -/
def scanStyles (xml : String) : List (String × String) :=
  scanStylesAux "<w:style".data (xml.data.length + 1) xml.data []

/-- Drop leading JavaScript whitespace (the starred whitespace class of the
name patterns). -/
def wsStarDrop (l : List Char) : List Char := l.dropWhile isJsWs

/-- Full-match pattern for heading 1. -/
def patH1 (n : String) : Bool :=
  "heading".data.isPrefixOf n.data && wsStarDrop (n.data.drop 7) == ['1']

/-- Full-match pattern for heading 2. -/
def patH2 (n : String) : Bool :=
  "heading".data.isPrefixOf n.data && wsStarDrop (n.data.drop 7) == ['2']

/-- Anchored pattern: name begins with body. -/
def patBodyN (n : String) : Bool := "body".data.isPrefixOf n.data

/-- Anchored pattern: name begins with list, optional whitespace, bullet. -/
def patBulletN (n : String) : Bool :=
  "list".data.isPrefixOf n.data && "bullet".data.isPrefixOf (wsStarDrop (n.data.drop 4))

/-- Anchored pattern: name begins with table, optional whitespace, head. -/
def patTHname (n : String) : Bool :=
  "table".data.isPrefixOf n.data && "head".data.isPrefixOf (wsStarDrop (n.data.drop 5))

/-- Anchored pattern: name begins with tableheader. -/
def patTHid (n : String) : Bool := "tableheader".data.isPrefixOf n.data

/-- Anchored pattern: name begins with table, optional whitespace, text. -/
def patTTname (n : String) : Bool :=
  "table".data.isPrefixOf n.data && "text".data.isPrefixOf (wsStarDrop (n.data.drop 5))

/-- Anchored pattern: name begins with tabletext. -/
def patTTid (n : String) : Bool := "tabletext".data.isPrefixOf n.data

/-- Anchored pattern: name begins with table, optional whitespace, grid. -/
def patTGname (n : String) : Bool :=
  "table".data.isPrefixOf n.data && "grid".data.isPrefixOf (wsStarDrop (n.data.drop 5))

/-- The pick helper of detectTemplateStyles: first map entry (in scan order)
whose name matches any of the given patterns (entry-major iteration, exactly
as the nested for loops of the source). -/
def pickStyle (entries : List (String × String)) (pats : List (String → Bool)) :
    Option String :=
  (entries.find? (fun e => pats.any (fun p => p e.2))).map (·.1)

/-- JavaScript falsy-or against the compiled-in default (null and the empty
string both fall back). -/
def orDefault (o : Option String) (d : String) : String :=
  match o with
  | some v => if v = "" then d else v
  | none => d

/-- ASCII hexadecimal digit (the bracketed class of the fill regular
expression). -/
def isHexC (c : Char) : Bool :=
  ('0' ≤ c && c ≤ '9') || ('a' ≤ c && c ≤ 'f') || ('A' ≤ c && c ≤ 'F')

/-- Match of the fill regular expression at the head of the list: the literal
attribute text, six hexadecimal digits, a closing quote.  Returns the six
captured digits. -/
def matchFillAt : List Char → Option (List Char)
  | 'w' :: ':' :: 'f' :: 'i' :: 'l' :: 'l' :: '=' :: '"' :: a :: b :: c :: d :: e :: f :: '"' :: _ =>
    if ([a, b, c, d, e, f] : List Char).all isHexC then some [a, b, c, d, e, f] else none
  | _ => none

/-- First match of the fill regular expression in the main document part. -/
def firstFillAux : List Char → Option (List Char)
  | [] => none
  | c :: rest =>
    match matchFillAt (c :: rest) with
    | some cs => some cs
    | none => firstFillAux rest

/-- Captured six digits of the first fill attribute of a document (None when
absent). -/
def firstFillHex (d : String) : Option (List Char) := firstFillAux d.data

/-! ## The template archive -/

/-- In-memory template archive: internal path to textual content, in archive
order.  JSZip exposes the archive as a path-indexed file map; the claims only
concern which entries exist and their contents, which the association list
captures. -/
abbrev Zip := List (String × String)

/-- Path lookup in the archive. -/
def lookupZip (z : Zip) (k : String) : Option String :=
  (z.find? (fun e => e.1 == k)).map (·.2)

/-- The accent-fill computation of detectTemplateStyles: the compiled-in
default unless the main document part is present and contains a fill
attribute, in which case the first captured value upper-cased. -/
def resolveFill : Option String → String
  | none => DEFAULT_STYLES.fill
  | some d =>
    match firstFillHex d with
    | some cs => String.mk (cs.map Char.toUpper)
    | none => DEFAULT_STYLES.fill

/-- The detectTemplateStyles function of the source: defaults when the style
catalogue part is absent (note that in that case the fill scan of the main
document part never runs); otherwise each role is the first matching
identifier of the catalogue scan, falling back to the compiled-in default,
and the accent fill is overridden by the first explicit fill attribute of the
main document part. -/
def detectTemplateStyles (z : Zip) : Styles :=
  match lookupZip z "word/styles.xml" with
  | none => DEFAULT_STYLES
  | some xml =>
    let m := scanStyles xml
    let fill := resolveFill (lookupZip z "word/document.xml")
    { h1 := orDefault (pickStyle m [fun n => n == "heading 1", patH1]) DEFAULT_STYLES.h1,
      h2 := orDefault (pickStyle m [fun n => n == "heading 2", patH2]) DEFAULT_STYLES.h2,
      body := orDefault (pickStyle m
        [fun n => n == "body text", fun n => n == "bodytext", patBodyN]) DEFAULT_STYLES.body,
      bullet := orDefault (pickStyle m
        [fun n => n == "list bullet", patBulletN]) DEFAULT_STYLES.bullet,
      tableHeader := orDefault (pickStyle m
        [fun n => n == "table header", patTHid, patTHname]) DEFAULT_STYLES.tableHeader,
      tableText := orDefault (pickStyle m
        [fun n => n == "table text", patTTid, patTTname]) DEFAULT_STYLES.tableText,
      tableGrid := orDefault (pickStyle m
        [fun n => n == "table grid", patTGname, fun n => n == "normal table"]) DEFAULT_STYLES.tableGrid,
      fill := fill }

/-! ## Metadata stripping and the archive-level export -/

/-- Attempt a match of a self-closing-tag regular expression of the shape
start-literal, bracketed-negation star, mid literal, bracketed-negation star,
slash, greater-than.  Because the starred classes exclude the greater-than
sign, a match from this candidate must end at the first greater-than sign
after it, preceded by a slash, with the mid literal inside the span between.
Returns the rest after the match. -/
def tagMatchAt (startLit midLit : List Char) (l : List Char) : Option (List Char) :=
  let after := l.drop startLit.length
  match splitAtCharAux '>' after with
  | none => none
  | some (seg, rest) =>
    match seg.reverse with
    | '/' :: segr => if containsLit midLit segr.reverse then some rest else none
    | _ => none

/-- Attempt a match of the dotm relationship regular expression: the literal
Relationship opener, non-greater-than characters, the dotm extension literal,
then non-slash characters up to a slash that must be followed directly by the
closing greater-than sign.  Leftmost attempt positions are taken, as the
engine does. -/
def dotmMatchAt (l : List Char) : Option (List Char) :=
  let after := l.drop "<Relationship".length
  match scanToLitNoGt ".dotm".data after with
  | none => none
  | some r1 =>
    match splitAtCharAux '/' r1 with
    | none => none
    | some (_, r2) =>
      match r2 with
      | '>' :: rest => some rest
      | _ => none

/-- Attempt a match of the attachedTemplate regular expression: the opening
literal, non-slash characters, then slash greater-than. -/
def attachedTemplateMatchAt (l : List Char) : Option (List Char) :=
  let after := l.drop "<w:attachedTemplate".length
  match splitAtCharAux '/' after with
  | none => none
  | some (_, r2) =>
    match r2 with
    | '>' :: rest => some rest
    | _ => none

/-- Global replace-with-empty over a tag matcher: each leftmost candidate is
attempted; on success the match is dropped and the scan continues after it,
on failure the scan moves one character forward. -/
def removeByMatcherAux (startLit : List Char) (matchAt : List Char → Option (List Char)) :
    Nat → List Char → List Char
  | 0, l => l
  | _ + 1, [] => []
  | fuel + 1, c :: rest =>
    if startLit.isPrefixOf (c :: rest) then
      match matchAt (c :: rest) with
      | some r => removeByMatcherAux startLit matchAt fuel r
      | none => c :: removeByMatcherAux startLit matchAt fuel rest
    else c :: removeByMatcherAux startLit matchAt fuel rest

/-- Remove the customXml relationship entries from the document relationship
list. -/
def stripCustomXmlRels (s : String) : String :=
  String.mk (removeByMatcherAux "<Relationship".data
    (tagMatchAt "<Relationship".data "relationships/customXml".data)
    (s.data.length + 1) s.data)

/-- Remove the customXml override entries from the content-types index. -/
def stripCustomXmlOverrides (s : String) : String :=
  String.mk (removeByMatcherAux "<Override".data
    (tagMatchAt "<Override".data "/customXml/".data)
    (s.data.length + 1) s.data)

/-- Remove the attached-template (dotm) relationship from the settings
relationship list. -/
def stripDotmRel (s : String) : String :=
  String.mk (removeByMatcherAux "<Relationship".data dotmMatchAt
    (s.data.length + 1) s.data)

/-- Remove the attachedTemplate element from the settings part. -/
def stripAttachedTemplate (s : String) : String :=
  String.mk (removeByMatcherAux "<w:attachedTemplate".data attachedTemplateMatchAt
    (s.data.length + 1) s.data)

/-- Write one archive entry with JSZip file() semantics: an existing path
keeps its position and gets the new content, a new path is appended. -/
def setZip : Zip → String → String → Zip
  | [], k, v => [(k, v)]
  | (k0, v0) :: t, k, v =>
    if k0 = k then (k0, v) :: t else (k0, v0) :: setZip t k v

/-- Patch one part in place when it is present, exactly as the guarded
read-transform-write sequences of exportWithTemplate (each one is skipped
silently when the part is absent). -/
def patchIfPresent (z : Zip) (k : String) (f : String → String) : Zip :=
  match lookupZip z k with
  | none => z
  | some c => setZip z k (f c)

/-- Archive-level failures of the export: the container bytes do not open as
an archive, or the main document part is absent. -/
inductive TemplateError where
  | invalidArchive
  | missingDocumentPart
deriving DecidableEq, Repr

/-- The exportWithTemplate function of the source at the archive level.  The
JSZip loadAsync call rejects on bytes that are not a valid container; that
outcome is modelled by the None argument (invalidArchive).  After the
metadata-stripping steps the source reads the main document part with no
existence guard, so a missing part throws before any output is generated
(missingDocumentPart).  On success the returned archive is the input archive
with the customXml entries removed, the four auxiliary parts patched in
place when present, and the main document part replaced by the spliced
document; generation and download of the byte blob happen only in the Ok
case. -/
def exportZip (zl : Option Zip) (scopes : List Scope) (rm : List (String × List String))
    (t : DocTitle) (st : Styles) : Except TemplateError Zip :=
  match zl with
  | none => .error .invalidArchive
  | some z =>
    let z1 : Zip := z.filter (fun e => !(jsStartsWith e.1 "customXml/"))
    let z2 := patchIfPresent z1 "word/_rels/document.xml.rels" stripCustomXmlRels
    let z3 := patchIfPresent z2 "[Content_Types].xml" stripCustomXmlOverrides
    let z4 := patchIfPresent z3 "word/_rels/settings.xml.rels" stripDotmRel
    let z5 := patchIfPresent z4 "word/settings.xml" stripAttachedTemplate
    match lookupZip z5 "word/document.xml" with
    | none => .error .missingDocumentPart
    | some docXml =>
      .ok (setZip z5 "word/document.xml"
        (exportDocXml docXml (assembleContent scopes rm st) t))

/-! ## Helper lemmas on string joining -/

theorem sfoldl_shift (l : List String) (a : String) :
    l.foldl (fun r s => r ++ s) a = a ++ l.foldl (fun r s => r ++ s) "" := by
  induction l generalizing a with
  | nil => simp
  | cons x t ih =>
    simp only [List.foldl_cons]
    rw [ih (a ++ x), ih ("" ++ x), String.empty_append, String.append_assoc]

theorem sjoin_cons (s : String) (l : List String) :
    String.join (s :: l) = s ++ String.join l := by
  simp only [String.join, List.foldl_cons, String.empty_append]
  exact sfoldl_shift l s

theorem sjoin_nil : String.join [] = "" := rfl

theorem sjoin_append (a b : List String) :
    String.join (a ++ b) = String.join a ++ String.join b := by
  induction a with
  | nil => simp [sjoin_nil]
  | cons x t ih => simp [sjoin_cons, ih, String.append_assoc]

/-! ## Observers over the block representation -/

/-- Is the block a level-one heading. -/
def isH1B : Block → Bool
  | .h1 _ => true
  | _ => false

/-- Is the block a body paragraph. -/
def isBodyB : Block → Bool
  | .bodyPara _ => true
  | _ => false

/-- Is the block a table. -/
def isTableB : Block → Bool
  | .table _ _ => true
  | _ => false

/-- Text of a level-one heading block. -/
def h1TextOpt : Block → Option String
  | .h1 t => some t
  | _ => none

/-- Text of a bulleted block. -/
def bulletTextOpt : Block → Option String
  | .bulletPara t => some t
  | _ => none

/-- Row list of a table block. -/
def tableRowsOpt : Block → Option (List (List String))
  | .table _ rows => some rows
  | _ => none

/-- Heading / body adjacent pairs of a block list (the record shape of the
new-features sections). -/
def pairsOf : List Block → List (List String)
  | .h2 t :: .bodyPara d :: rest => [t, d] :: pairsOf rest
  | _ :: rest => pairsOf rest
  | [] => []

/-- Scope identifiers rendered as tables. -/
def tabularIds : List String :=
  ["deprecated", "deployment_changes", "security", "migration_guide"]

/-- The record sequence visible in a rendered block list, per scope shape:
table rows for tabular scopes, heading / body pairs for new features,
verbatim bullet texts otherwise. -/
def recordsIn (id : String) (blocks : List Block) : List (List String) :=
  if id = "new_features" then pairsOf blocks
  else if id ∈ tabularIds then (blocks.filterMap tableRowsOpt).flatten
  else (blocks.filterMap bulletTextOpt).map (fun b => [b])

/-- The heading text of one scope section, as emitted by the markup builder. -/
def headingTextOf (sc : Scope) (bullets : List String) : String :=
  if bullets = [] then sc.label
  else if sc.id = "new_features" then "New or Changed Features"
  else if sc.id = "deprecated" then "Deprecated or Removed Features"
  else if sc.id = "deployment_changes" then "Deployment Guide Update Notes"
  else if sc.id = "security" then "Security & Compliance Requirements"
  else if sc.id = "breaking_changes" then "Breaking Changes"
  else if sc.id = "migration_guide" then "Summary: Key Actions for Deployment Teams"
  else sc.label

/-- Helper: a scope with zero findings renders exactly the heading, the
no-findings body paragraph and the trailing spacer. -/
theorem buildScopeBlocks_nil (sc : Scope) :
    buildScopeBlocks sc [] =
      [Block.h1 sc.label,
       Block.bodyPara ("No " ++ jsToLower sc.label ++ " identified in this document."),
       Block.spacer] := by
  simp [buildScopeBlocks]

/-- C8 scenario: for every scope and every style map, rendering an empty
finding list yields a fragment of exactly one heading block, exactly one body
paragraph block (carrying the no-findings message), and no table block, and
the rendered string is precisely heading plus message paragraph plus spacer. -/
theorem c8_empty_scope (sc : Scope) (st : Styles) :
    buildScopeBlocks sc [] =
      [Block.h1 sc.label,
       Block.bodyPara ("No " ++ jsToLower sc.label ++ " identified in this document."),
       Block.spacer] ∧
    (buildScopeBlocks sc []).countP isH1B = 1 ∧
    (buildScopeBlocks sc []).countP isBodyB = 1 ∧
    (buildScopeBlocks sc []).countP isTableB = 0 ∧
    buildScopeXml sc [] st =
      xmlH1 sc.label st ++
      (xmlBody ("No " ++ jsToLower sc.label ++ " identified in this document.") st ++
       xmlSpacer st) := by
  refine ⟨buildScopeBlocks_nil sc, ?_, ?_, ?_, ?_⟩
  · rw [buildScopeBlocks_nil]; rfl
  · rw [buildScopeBlocks_nil]; rfl
  · rw [buildScopeBlocks_nil]; rfl
  · rw [buildScopeXml, buildScopeBlocks_nil]
    simp [sjoin_cons, sjoin_nil, renderBlock, String.append_assoc]

/-! ## Order preservation (C7) -/

theorem pairsOf_nfChunks (bs : List String) :
    pairsOf ((bs.map (fun b =>
        [Block.h2 (nfSplit b).1, Block.bodyPara (nfSplit b).2, Block.spacer])).flatten) =
      bs.map (fun b => [(nfSplit b).1, (nfSplit b).2]) := by
  induction bs with
  | nil => rfl
  | cons b t ih => simp [pairsOf, ih]

theorem filterMap_bullets (bs : List String) :
    (bs.map Block.bulletPara).filterMap bulletTextOpt = bs := by
  induction bs with
  | nil => rfl
  | cons b t ih => simp [bulletTextOpt, ih]

theorem filterMap_comp_bullets (bs : List String) :
    List.filterMap (bulletTextOpt ∘ Block.bulletPara) bs = bs := by
  induction bs with
  | nil => rfl
  | cons b t ih => simp [Function.comp, bulletTextOpt, ih]

theorem h1Free_bullets (bs : List String) :
    (bs.map Block.bulletPara).filterMap h1TextOpt = [] := by
  induction bs with
  | nil => rfl
  | cons b t ih => simp [h1TextOpt, ih]

theorem h1Free_nfChunks (bs : List String) :
    ((bs.map (fun b =>
        [Block.h2 (nfSplit b).1, Block.bodyPara (nfSplit b).2, Block.spacer])).flatten).filterMap
        h1TextOpt = [] := by
  induction bs with
  | nil => rfl
  | cons b t ih => simp [h1TextOpt, ih]

theorem headings_build (sc : Scope) (bs : List String) :
    (buildScopeBlocks sc bs).filterMap h1TextOpt = [headingTextOf sc bs] := by
  by_cases hbs : bs = []
  · simp [buildScopeBlocks, headingTextOf, hbs, h1TextOpt]
  · by_cases h1 : sc.id = "new_features"
    · simp [buildScopeBlocks, headingTextOf, hbs, h1, h1TextOpt, h1Free_nfChunks]
    · by_cases h2 : sc.id = "deprecated"
      · simp [buildScopeBlocks, headingTextOf, hbs, h1, h2, h1TextOpt]
      · by_cases h3 : sc.id = "deployment_changes"
        · simp [buildScopeBlocks, headingTextOf, hbs, h1, h2, h3, h1TextOpt]
        · by_cases h4 : sc.id = "security"
          · simp [buildScopeBlocks, headingTextOf, hbs, h1, h2, h3, h4, h1TextOpt]
          · by_cases h5 : sc.id = "breaking_changes"
            · simp [buildScopeBlocks, headingTextOf, hbs, h1, h2, h3, h4, h5, h1TextOpt,
                h1Free_bullets]
            · by_cases h6 : sc.id = "migration_guide"
              · simp [buildScopeBlocks, headingTextOf, hbs, h1, h2, h3, h4, h5, h6, h1TextOpt]
              · simp [buildScopeBlocks, headingTextOf, hbs, h1, h2, h3, h4, h5, h6, h1TextOpt,
                  h1Free_bullets]

theorem records_build (sc : Scope) (bs : List String) :
    recordsIn sc.id (buildScopeBlocks sc bs) = bs.map (recordCells sc.id) := by
  by_cases hbs : bs = []
  · subst hbs
    simp [buildScopeBlocks, recordsIn, pairsOf, h1TextOpt, bulletTextOpt, tableRowsOpt]
  · by_cases h1 : sc.id = "new_features"
    · simp [buildScopeBlocks, recordsIn, recordCells, hbs, h1, pairsOf, pairsOf_nfChunks]
    · by_cases h2 : sc.id = "deprecated"
      · simp [buildScopeBlocks, recordsIn, recordCells, hbs, h1, h2, tabularIds, tableRowsOpt]
      · by_cases h3 : sc.id = "deployment_changes"
        · simp [buildScopeBlocks, recordsIn, recordCells, hbs, h1, h2, h3, tabularIds,
            tableRowsOpt]
        · by_cases h4 : sc.id = "security"
          · simp [buildScopeBlocks, recordsIn, recordCells, hbs, h1, h2, h3, h4, tabularIds,
              tableRowsOpt]
          · by_cases h5 : sc.id = "breaking_changes"
            · simp [buildScopeBlocks, recordsIn, recordCells, hbs, h1, h2, h3, h4, h5,
                tabularIds, bulletTextOpt, filterMap_comp_bullets]
            · by_cases h6 : sc.id = "migration_guide"
              · simp [buildScopeBlocks, recordsIn, recordCells, hbs, h1, h2, h3, h4, h5, h6,
                  tabularIds, tableRowsOpt]
              · simp [buildScopeBlocks, recordsIn, recordCells, hbs, h1, h2, h3, h4, h5, h6,
                  tabularIds, bulletTextOpt, filterMap_comp_bullets]

theorem assemble_blocks (scopes : List Scope) (rm : List (String × List String)) (st : Styles) :
    assembleContent scopes rm st =
      String.join (((scopes.map (fun sc =>
        buildScopeBlocks sc (bulletsFor rm sc.id))).flatten).map (renderBlock st)) := by
  induction scopes with
  | nil => rfl
  | cons sc t ih =>
    simp only [assembleContent, List.map_cons, List.flatten_cons, List.map_append,
      sjoin_cons, sjoin_append]
    rw [← ih]
    rfl

theorem contentBlocks_headings (scopes : List Scope) (rm : List (String × List String)) :
    ((scopes.map (fun sc => buildScopeBlocks sc (bulletsFor rm sc.id))).flatten).filterMap
        h1TextOpt =
      scopes.map (fun sc => headingTextOf sc (bulletsFor rm sc.id)) := by
  induction scopes with
  | nil => rfl
  | cons sc t ih =>
    simp only [List.map_cons, List.flatten_cons, List.filterMap_append, headings_build, ih]
    rfl

/-- C7: the assembled output markup is the rendering of the per-scope block
sequences concatenated in exactly the caller-supplied scope order; the
sequence of section headings in the output equals the scope list mapped to
its headings (one section per scope, in order); and within every scope the
record sequence visible in the markup is exactly the input finding list
mapped positionally through the per-scope record parser — no reordering,
deduplication or filtering. -/
theorem c7_order (scopes : List Scope) (rm : List (String × List String)) (st : Styles) :
    (assembleContent scopes rm st =
      String.join (((scopes.map (fun sc =>
        buildScopeBlocks sc (bulletsFor rm sc.id))).flatten).map (renderBlock st))) ∧
    (((scopes.map (fun sc => buildScopeBlocks sc (bulletsFor rm sc.id))).flatten).filterMap
        h1TextOpt =
      scopes.map (fun sc => headingTextOf sc (bulletsFor rm sc.id))) ∧
    (∀ (sc : Scope) (bs : List String),
      recordsIn sc.id (buildScopeBlocks sc bs) = bs.map (recordCells sc.id)) :=
  ⟨assemble_blocks scopes rm st, contentBlocks_headings scopes rm,
   fun sc bs => records_build sc bs⟩

/-! ## Total parsing and delimiter fallback (C5) -/

theorem jsTrim_empty : jsTrim "" = "" := rfl

/-- The per-scope delimiter of the finding parser is absent from the text:
for new features neither an admissible colon nor a compiled-dash search hit,
for the dash-split scopes a split that returns the whole text, and trivially
true for the scopes that never split. -/
def noDelimB (id b : String) : Bool :=
  if id = "new_features" then
    !(decide (5 < jsIndexOf b ":" ∧ jsIndexOf b ":" < 80)) &&
    !(decide ((5 : Int) < jsSearchSDash1 b))
  else if id = "deprecated" ∨ id = "deployment_changes" ∨ id = "migration_guide" then
    jsSplitSDash b == [b]
  else true

/-- The record the parser degrades to when its delimiter is absent, built
from the full finding text (trim of the whole text or a fixed-length
truncation, the whole text itself, and the keyword parses of the whole
text). -/
def fallbackCells (id b : String) : List String :=
  if id = "new_features" then [jsTrim (jsSlice2 b 0 60), ""]
  else if id = "deprecated" then
    [orElseNE (jsTrim b) (jsSlice2 b 0 60), parseDepStatus b, b]
  else if id = "deployment_changes" then
    [orElseNE (jsTrim b) (jsSlice2 b 0 50), parseNature b, ""]
  else if id = "security" then secRow b
  else if id = "migration_guide" then
    [orElseNE (jsTrim b) (jsSlice2 b 0 30), b, parsePriority b]
  else [b]

/-- C5: the finding parser is a total function (every scope identifier,
known or custom, and every string yield a record by construction), and
whenever the per-scope delimiter is absent the record is the full-text
fallback. -/
theorem c5_total_fallback (id b : String) (h : noDelimB id b = true) :
    recordCells id b = fallbackCells id b := by
  by_cases h1 : id = "new_features"
  · subst h1
    simp [noDelimB] at h
    obtain ⟨hc, hd⟩ := h
    have hcond1 : ¬(5 < jsIndexOf b ":" ∧ jsIndexOf b ":" < 80) := by omega
    have hcond2 : ¬(5 < jsSearchSDash1 b) := by omega
    simp [recordCells, fallbackCells, nfSplit, hcond1, hcond2]
  · by_cases h2 : id = "deprecated"
    · subst h2
      simp [noDelimB] at h
      simp [recordCells, fallbackCells, depRow, h, joinSep, jsTrim_empty, orElseNE]
    · by_cases h3 : id = "deployment_changes"
      · subst h3
        simp [noDelimB] at h
        simp [recordCells, fallbackCells, deplRow, h, jsTrim_empty, orElseNE]
      · by_cases h4 : id = "security"
        · subst h4; rfl
        · by_cases h5 : id = "migration_guide"
          · subst h5
            simp [noDelimB] at h
            simp [recordCells, fallbackCells, migRow, h, jsTrim_empty, orElseNE]
          · simp [recordCells, fallbackCells, h1, h2, h3, h4, h5]

/-- C5 witness: a concrete delimiter-free finding under the deprecated scope
falls back to the full-text record. -/
theorem c5_witness :
    recordCells "deprecated" "Feature X removed entirely" =
      fallbackCells "deprecated" "Feature X removed entirely" :=
  c5_total_fallback "deprecated" "Feature X removed entirely" (by decide)

/-! ## The deprecated-scenario record (C4) -/

/-- The finding string of the deprecated-with-dash scenario. -/
def c4Finding : String :=
  "Legacy Auth Token — Replaced by OAuth2 client credentials; update all integration scripts"

/-- C4: on the template-export path (buildScopeXml, the core of the engine)
the compiled dash pattern contains a literal letter s, so the scenario
finding never splits: the produced row carries the full text as both item
and notes.  The docx-library export path of src/src/App.jsx, whose regex
literal genuinely matches whitespace, produces exactly the record the
specification scenario states; the template-export behaviour is the coding
slip. -/
theorem c4_eval :
    depRow c4Finding = [c4Finding, "Replaced", c4Finding] ∧
    appDepRow c4Finding =
      ["Legacy Auth Token", "Replaced",
       "Replaced by OAuth2 client credentials; update all integration scripts"] ∧
    depRow c4Finding ≠
      ["Legacy Auth Token", "Replaced",
       "Replaced by OAuth2 client credentials; update all integration scripts"] := by
  refine ⟨by decide, by decide, by decide⟩

/-! ## Missing page-layout block (C2) -/

/-- A document body with no sectPr block. -/
def c2Body : String := "<w:body><w:p>x</w:p></w:body>"

/-- The section markup generated for one scope in the C2 evaluation. -/
def c2Content : String :=
  assembleContent [{ id := "breaking_changes", label := "Breaking Changes" }]
    [("breaking_changes", ["API X removed"])] DEFAULT_STYLES

/-- C2: when the body contains no sectPr block both components of the
injection bounds are the -1 sentinel; fed to slice, the sentinel makes the
prefix everything but the final byte and the suffix that final byte, so the
generated markup is spliced before the last character of the body rather
than appended after the whole body as the specification states. -/
theorem c2_eval :
    findInjectionBounds c2Body = (-1, -1) ∧
    exportDocXml c2Body c2Content {} =
      "<w:body><w:p>x</w:p></w:body" ++ c2Content ++ ">" ∧
    exportDocXml c2Body c2Content {} ≠ c2Body ++ c2Content := by
  set_option maxRecDepth 4000 in
  refine ⟨by decide, by decide, by decide⟩

/-! ## Injection-boundary preservation (C1) -/

theorem lastOccUpTo_occurs {pat l : List Char} {j : Nat} :
    ∀ {i : Nat}, lastOccUpTo pat l i = some j → occursAt pat l j = true := by
  intro i
  induction i with
  | zero =>
    intro h
    unfold lastOccUpTo at h
    split at h
    · cases h; assumption
    · cases h
  | succ k ih =>
    intro h
    unfold lastOccUpTo at h
    split at h
    · cases h; assumption
    · exact ih h

theorem occursAt_le {pat l : List Char} {j : Nat} (hne : pat ≠ [])
    (h : occursAt pat l j = true) : j + pat.length ≤ l.length := by
  unfold occursAt at h
  rw [List.isPrefixOf_iff_prefix] at h
  have hlen := h.length_le
  rw [List.length_drop] at hlen
  have hpos : 0 < pat.length := List.length_pos.mpr hne
  omega

theorem jsSlice2_zero_take (s : String) (p : Int) (h0 : 0 ≤ p)
    (hl : p.toNat ≤ s.data.length) :
    jsSlice2 s 0 p = String.mk (s.data.take p.toNat) := by
  unfold jsSlice2 normSliceIdx
  have hnp : ¬ p < 0 := by omega
  have h00 : ¬ ((0 : Int) < 0) := by decide
  rw [if_neg hnp, if_neg h00]
  have hl2 : p.toNat ≤ s.length := by rw [← String.length_data]; exact hl
  simp [Nat.min_eq_left hl2]

theorem jsSlice2_pre (s u : String) (p : Int) (h0 : 0 ≤ p)
    (hl : p.toNat ≤ s.data.length) :
    jsSlice2 (jsSlice2 s 0 p ++ u) 0 p = jsSlice2 s 0 p := by
  have hlen2 : (s.data.take p.toNat).length = p.toNat := by
    rw [List.length_take]
    omega
  rw [jsSlice2_zero_take s p h0 hl]
  have hdata : (String.mk (s.data.take p.toNat) ++ u).data
      = s.data.take p.toNat ++ u.data := rfl
  have hl2 : p.toNat ≤ (String.mk (s.data.take p.toNat) ++ u).data.length := by
    rw [hdata, List.length_append, hlen2]
    exact Nat.le_add_right _ _
  rw [jsSlice2_zero_take _ p h0 hl2]
  apply congrArg
  rw [hdata]
  exact List.take_left' hlen2

theorem jsLastIndexOfFrom_none {s pat : String} {i : Int} (hi : ¬ i < 0)
    (h : lastOccUpTo pat.data s.data (min i.toNat s.data.length) = none) :
    jsLastIndexOfFrom s pat i = -1 := by
  simp only [jsLastIndexOfFrom]
  rw [if_neg hi, h]

theorem jsLastIndexOfFrom_some {s pat : String} {i : Int} {m : Nat} (hi : ¬ i < 0)
    (h : lastOccUpTo pat.data s.data (min i.toNat s.data.length) = some m) :
    jsLastIndexOfFrom s pat i = Int.ofNat m := by
  simp only [jsLastIndexOfFrom]
  rw [if_neg hi, h]

theorem findInjectionBounds_pos (d : String)
    (hsect : jsLastIndexOf d "<w:sectPr" ≠ -1) :
    0 ≤ (findInjectionBounds d).1 ∧ (findInjectionBounds d).1.toNat ≤ d.data.length := by
  simp only [findInjectionBounds]
  rcases hls : lastOccUpTo "<w:sectPr".data d.data d.data.length with _ | n
  · exfalso
    apply hsect
    unfold jsLastIndexOf
    rw [hls]
  · have h9 : n + "<w:sectPr".data.length ≤ d.data.length :=
      occursAt_le (by decide) (lastOccUpTo_occurs hls)
    have e9 : ("<w:sectPr".data).length = 9 := rfl
    rw [e9] at h9
    have hls2 : jsLastIndexOf d "<w:sectPr" = Int.ofNat n := by
      unfold jsLastIndexOf
      rw [hls]
    rw [hls2]
    have hge : ¬ (Int.ofNat n < 0) := by
      simp only [Int.ofNat_eq_coe]
      omega
    rcases hlp : lastOccUpTo "</w:p>".data d.data (min (Int.ofNat n).toNat d.data.length)
      with _ | m
    · rw [jsLastIndexOfFrom_none hge hlp, if_pos rfl]
      simp only [Int.ofNat_eq_coe]
      constructor
      · omega
      · omega
    · have h6 : m + "</w:p>".data.length ≤ d.data.length :=
        occursAt_le (by decide) (lastOccUpTo_occurs hlp)
      have e6 : ("</w:p>".data).length = 6 := rfl
      rw [e6] at h6
      rw [jsLastIndexOfFrom_some hge hlp]
      rw [if_neg (by simp only [Int.ofNat_eq_coe]; omega : ¬ (Int.ofNat m = -1))]
      simp only [Int.ofNat_eq_coe]
      constructor
      · omega
      · omega

/-- C1 (amended): whenever the cover-title replacement leaves the document
body unchanged (no override title, or no Title style reference in the body)
and the body contains a sectPr block, the span of the exported document up to
the injection point is byte-identical to the corresponding span of the input
body, for every finding set and scope list. -/
theorem c1_amended (docXml : String) (scopes : List Scope)
    (rm : List (String × List String)) (st : Styles) (t : DocTitle)
    (hsect : jsLastIndexOf docXml "<w:sectPr" ≠ -1)
    (hid : updateCoverTitle docXml t = docXml) :
    jsSlice2 (exportDocXml docXml (assembleContent scopes rm st) t) 0
        (findInjectionBounds docXml).1 =
      jsSlice2 docXml 0 (findInjectionBounds docXml).1 := by
  obtain ⟨hge, hle⟩ := findInjectionBounds_pos docXml hsect
  simp only [exportDocXml]
  rw [hid, String.append_assoc]
  exact jsSlice2_pre docXml _ _ hge hle

/-- A template body whose cover contains a Title-styled paragraph before the
page-layout block. -/
def c1Doc : String :=
  "<w:p><w:pPr><w:pStyle w:val=\"Title\"/></w:pPr><w:r><w:t>Old</w:t></w:r></w:p><w:sectPr/>"

/-- C1 counterexample: with a title override supplied, the cover-title
replacement rewrites the Title paragraph, which lies inside the prefix, so
the span of the output before the injection point is not byte-identical to
the corresponding span of the input body.  The quantification of the claim
over all title overrides is therefore false. -/
theorem c1_counterexample :
    jsSlice2 (exportDocXml c1Doc (assembleContent [] [] DEFAULT_STYLES) { title := "New" }) 0
        (findInjectionBounds (exportDocXml c1Doc (assembleContent [] [] DEFAULT_STYLES)
          { title := "New" })).1 ≠
      jsSlice2 c1Doc 0 (findInjectionBounds c1Doc).1 := by
  set_option maxRecDepth 8000 in decide

/-- C1 witness: a concrete body with a paragraph and a sectPr block, no title
override, arbitrary empty finding set. -/
theorem c1_witness :
    jsSlice2 (exportDocXml "<w:p>hello</w:p><w:sectPr/>"
        (assembleContent [] [] DEFAULT_STYLES) {}) 0
        (findInjectionBounds "<w:p>hello</w:p><w:sectPr/>").1 =
      jsSlice2 "<w:p>hello</w:p><w:sectPr/>" 0
        (findInjectionBounds "<w:p>hello</w:p><w:sectPr/>").1 :=
  c1_amended "<w:p>hello</w:p><w:sectPr/>" [] [] DEFAULT_STYLES {} (by decide) (by rfl)

/-! ## Archive-level error handling (C3) and the frame condition (C10) -/

theorem lookupZip_filter_none {z : Zip} {k : String} (p : String × String → Bool)
    (h : lookupZip z k = none) : lookupZip (z.filter p) k = none := by
  simp only [lookupZip, Option.map_eq_none', List.find?_eq_none] at h ⊢
  intro e he
  exact h e (List.mem_of_mem_filter he)

theorem lookupZip_setZip_ne {z : Zip} {k0 k v : String} (h : k ≠ k0) :
    lookupZip (setZip z k0 v) k = lookupZip z k := by
  induction z with
  | nil =>
    simp only [setZip, lookupZip, List.find?]
    rw [show (k0 == k) = false from by simp [Ne.symm h]]
  | cons e t ih =>
    obtain ⟨a, b⟩ := e
    simp only [setZip]
    by_cases ha : a = k0
    · rw [if_pos ha]
      simp only [lookupZip, List.find?]
      rw [show (a == k) = false from by simp [ha, Ne.symm h]]
    · rw [if_neg ha]
      simp only [lookupZip, List.find?]
      cases hb : (a == k) with
      | true => rfl
      | false => exact ih

theorem lookupZip_patch_ne {z : Zip} {k0 k : String} {f : String → String} (h : k ≠ k0) :
    lookupZip (patchIfPresent z k0 f) k = lookupZip z k := by
  unfold patchIfPresent
  cases lookupZip z k0 with
  | none => rfl
  | some c => exact lookupZip_setZip_ne h

/-- C3: a byte sequence that does not open as an archive fails the export
with the single invalid-archive error, and a valid archive whose main
document part is absent fails with the single missing-part error; in both
cases the result carries no output archive (the error constructor has no
payload), for every finding set, scope list, title override and style map. -/
theorem c3_error_handling :
    (∀ (scopes : List Scope) (rm : List (String × List String)) (t : DocTitle) (st : Styles),
      exportZip none scopes rm t st = Except.error TemplateError.invalidArchive) ∧
    (∀ (z : Zip) (scopes : List Scope) (rm : List (String × List String))
        (t : DocTitle) (st : Styles), lookupZip z "word/document.xml" = none →
      exportZip (some z) scopes rm t st = Except.error TemplateError.missingDocumentPart) := by
  constructor
  · intro scopes rm t st
    rfl
  · intro z scopes rm t st h
    simp only [exportZip]
    rw [show lookupZip
        (patchIfPresent (patchIfPresent (patchIfPresent (patchIfPresent
          (z.filter (fun e => !(jsStartsWith e.1 "customXml/")))
          "word/_rels/document.xml.rels" stripCustomXmlRels)
          "[Content_Types].xml" stripCustomXmlOverrides)
          "word/_rels/settings.xml.rels" stripDotmRel)
          "word/settings.xml" stripAttachedTemplate) "word/document.xml" = none from by
      rw [lookupZip_patch_ne (by decide), lookupZip_patch_ne (by decide),
        lookupZip_patch_ne (by decide), lookupZip_patch_ne (by decide)]
      exact lookupZip_filter_none _ h]

/-- C3 witness: concrete invalid bytes and a concrete archive without the
main document part. -/
theorem c3_witness :
    exportZip none [] [] {} DEFAULT_STYLES = Except.error TemplateError.invalidArchive ∧
    exportZip (some [("word/styles.xml", "x")]) [] [] {} DEFAULT_STYLES =
      Except.error TemplateError.missingDocumentPart :=
  ⟨c3_error_handling.1 [] [] {} DEFAULT_STYLES,
   c3_error_handling.2 [("word/styles.xml", "x")] [] [] {} DEFAULT_STYLES (by rfl)⟩

theorem mem_setZip_ne {z : Zip} {k c k0 v : String} (h : (k, c) ∈ z) (hne : k ≠ k0) :
    (k, c) ∈ setZip z k0 v := by
  induction z with
  | nil => cases h
  | cons e t ih =>
    obtain ⟨a, b⟩ := e
    simp only [setZip]
    rcases List.mem_cons.mp h with heq | hmem
    · cases heq
      rw [if_neg hne]
      exact List.mem_cons_self _ _
    · by_cases ha : a = k0
      · rw [if_pos ha]
        exact List.mem_cons_of_mem _ hmem
      · rw [if_neg ha]
        exact List.mem_cons_of_mem _ (ih hmem)

theorem mem_patch_ne {z : Zip} {k0 k c : String} {f : String → String}
    (h : (k, c) ∈ z) (hne : k ≠ k0) : (k, c) ∈ patchIfPresent z k0 f := by
  unfold patchIfPresent
  cases lookupZip z k0 with
  | none => exact h
  | some v => exact mem_setZip_ne h hne

/-- C10: for every input archive and successful export, every part whose path
is not a customXml entry and is none of the five modified parts (the document
relationship list, the content-types index, the settings relationship list,
the settings part and the main document part) is present in the output
archive at its original path with byte-identical content. -/
theorem c10_frame (z : Zip) (scopes : List Scope) (rm : List (String × List String))
    (t : DocTitle) (st : Styles) (out : Zip) (k c : String)
    (hok : exportZip (some z) scopes rm t st = Except.ok out)
    (hin : (k, c) ∈ z)
    (hcx : jsStartsWith k "customXml/" = false)
    (h1 : k ≠ "word/_rels/document.xml.rels") (h2 : k ≠ "[Content_Types].xml")
    (h3 : k ≠ "word/_rels/settings.xml.rels") (h4 : k ≠ "word/settings.xml")
    (h5 : k ≠ "word/document.xml") :
    (k, c) ∈ out := by
  simp only [exportZip] at hok
  split at hok
  · cases hok
  · rename_i docXml hdoc
    have hout : out = setZip
        (patchIfPresent (patchIfPresent (patchIfPresent (patchIfPresent
          (z.filter (fun e => !(jsStartsWith e.1 "customXml/")))
          "word/_rels/document.xml.rels" stripCustomXmlRels)
          "[Content_Types].xml" stripCustomXmlOverrides)
          "word/_rels/settings.xml.rels" stripDotmRel)
          "word/settings.xml" stripAttachedTemplate)
        "word/document.xml"
        (exportDocXml docXml (assembleContent scopes rm st) t) := by
      cases hok
      rfl
    rw [hout]
    apply mem_setZip_ne _ h5
    apply mem_patch_ne _ h4
    apply mem_patch_ne _ h3
    apply mem_patch_ne _ h2
    apply mem_patch_ne _ h1
    exact List.mem_filter.mpr ⟨hin, by rw [hcx]; rfl⟩

/-- C10 witness: a concrete archive with one untouched media part; the export
succeeds and the part is carried over verbatim. -/
theorem c10_witness :
    exportZip (some [("word/document.xml", "<w:p>x</w:p>"), ("word/media/image1.png", "IMG")])
        [] [] {} DEFAULT_STYLES =
      Except.ok [("word/document.xml", "<w:p>x</w:p>"), ("word/media/image1.png", "IMG")] ∧
    ("word/media/image1.png", "IMG") ∈
      ([("word/document.xml", "<w:p>x</w:p>"), ("word/media/image1.png", "IMG")] : Zip) :=
  ⟨by rfl,
   c10_frame [("word/document.xml", "<w:p>x</w:p>"), ("word/media/image1.png", "IMG")]
     [] [] {} DEFAULT_STYLES _ "word/media/image1.png" "IMG" (by rfl) (by decide)
     (by decide) (by decide) (by decide) (by decide) (by decide) (by decide)⟩

/-! ## Style fallback completeness (C6) and fill override (C9) -/

theorem orDefault_ne {o : Option String} {d : String} (hd : d ≠ "") :
    orDefault o d ≠ "" := by
  cases o with
  | none => exact hd
  | some v =>
    by_cases hv : v = ""
    · have e : orDefault (some v) d = d := by simp [orDefault, hv]
      rw [e]; exact hd
    · have e : orDefault (some v) d = v := by simp [orDefault, hv]
      rw [e]; exact hv

theorem matchFillAt_len {l cs : List Char} (h : matchFillAt l = some cs) :
    cs.length = 6 := by
  unfold matchFillAt at h
  split at h
  · split at h
    · cases h; rfl
    · cases h
  · cases h

theorem firstFillAux_len {l cs : List Char} (h : firstFillAux l = some cs) :
    cs.length = 6 := by
  induction l with
  | nil => cases h
  | cons c rest ih =>
    unfold firstFillAux at h
    split at h
    · rename_i cs0 hm
      cases h
      exact matchFillAt_len hm
    · exact ih h

/-- C6: for every input archive (including one with no style-catalogue part,
an empty catalogue, or arbitrary garbage text) every one of the eight logical
roles of the resolved style map is a non-empty string. -/
theorem c6_style_fallback (z : Zip) :
    (detectTemplateStyles z).h1 ≠ "" ∧ (detectTemplateStyles z).h2 ≠ "" ∧
    (detectTemplateStyles z).body ≠ "" ∧ (detectTemplateStyles z).bullet ≠ "" ∧
    (detectTemplateStyles z).tableHeader ≠ "" ∧ (detectTemplateStyles z).tableText ≠ "" ∧
    (detectTemplateStyles z).tableGrid ≠ "" ∧ (detectTemplateStyles z).fill ≠ "" := by
  cases hsty : lookupZip z "word/styles.xml" with
  | none =>
    simp only [detectTemplateStyles, hsty]
    decide
  | some xml =>
    simp only [detectTemplateStyles, hsty]
    refine ⟨orDefault_ne (by decide), orDefault_ne (by decide), orDefault_ne (by decide),
      orDefault_ne (by decide), orDefault_ne (by decide), orDefault_ne (by decide),
      orDefault_ne (by decide), ?_⟩
    cases hdoc : lookupZip z "word/document.xml" with
    | none => decide
    | some d =>
      simp only [resolveFill]
      cases hf : firstFillHex d with
      | none => decide
      | some cs =>
        show String.mk (cs.map Char.toUpper) ≠ ""
        intro he
        have hlen : (cs.map Char.toUpper).length = 0 := by
          have e : (String.mk (cs.map Char.toUpper)).data = ("" : String).data :=
            congrArg String.data he
          simpa using congrArg List.length e
        have h6 : cs.length = 6 := firstFillAux_len hf
        rw [List.length_map] at hlen
        omega

/-- C9 counterexample: an archive with no style-catalogue part but an
explicit six-digit fill attribute in its main document part keeps the
compiled-in accent fill (the fill scan never runs), refuting the claim for
catalogue-free archives. -/
theorem c9_counterexample :
    (detectTemplateStyles
        [("word/document.xml", "<w:tc><w:shd w:fill=\"ab12cd\"/></w:tc>")]).fill = "0073E6" ∧
    firstFillHex "<w:tc><w:shd w:fill=\"ab12cd\"/></w:tc>" =
      some ['a', 'b', '1', '2', 'c', 'd'] ∧
    ("0073E6" : String) ≠ "AB12CD" := by
  refine ⟨by decide, by decide, by decide⟩

/-- C9 (amended): for every archive that does carry a style-catalogue part,
when the main document part is present and contains an explicit six-hex-digit
fill attribute, the resolved accent fill equals the first such value
upper-cased. -/
theorem c9_amended (z : Zip) (sx dx : String) (cs : List Char)
    (hsty : lookupZip z "word/styles.xml" = some sx)
    (hdoc : lookupZip z "word/document.xml" = some dx)
    (hfill : firstFillHex dx = some cs) :
    (detectTemplateStyles z).fill = String.mk (cs.map Char.toUpper) := by
  simp only [detectTemplateStyles, hsty]
  rw [hdoc]
  simp only [resolveFill, hfill]

/-- C9 witness: an archive with an (empty) style catalogue and a fill
attribute resolves the accent fill to the upper-cased attribute value. -/
theorem c9_witness :
    (detectTemplateStyles
        [("word/styles.xml", ""),
         ("word/document.xml", "<w:tc><w:shd w:fill=\"ab12cd\"/></w:tc>")]).fill = "AB12CD" :=
  c9_amended
    [("word/styles.xml", ""), ("word/document.xml", "<w:tc><w:shd w:fill=\"ab12cd\"/></w:tc>")]
    "" "<w:tc><w:shd w:fill=\"ab12cd\"/></w:tc>" ['a', 'b', '1', '2', 'c', 'd']
    (by rfl) (by rfl) (by rfl)
